import Mathlib

/-!
Verification of the unification-based type-inference core of the PL compiler
(`src/infer.rs` and `src/ty.rs`) against its natural-language specification.

The development contains two layers:

1. A shallow embedding of the generic unification engine exactly as written in
   `src/infer.rs`: nodes are indices into an explicit heap (`Heap P`, a list of
   cells), mirroring the `Rc<RefCell<InferTy<T>>>` graph; `Rc::ptr_eq`
   corresponds to index equality; Rust `panic!()` is the explicit outcome
   `.panicked`; recursion is made total with a fuel argument (`.fuelOut` means
   the fuel ran out, i.e. the call did not finish within that recursion depth).
   The payload trait `Unify` of `src/infer.rs` is `fn unify(&a,&b) ->
   Result<(),()>`, embedded as a pure parameter `pu : P → P → Except Unit Unit`.

2. The type-system payloads of `src/ty.rs` (`Ty`, `IntTy`, `StructTy` and
   their `unify`/`concrete` implementations).  These implement a *richer*
   `Unify` trait (`fn unify(a: Self, b: Self) -> Result<Self, ()>`, an
   associated `Concrete` type) than the one declared in `src/infer.rs`: the
   engine version `src/ty.rs` compiles against is not part of the snapshot.
   That missing engine is modelled from the spec (§4.1): same algorithm, but
   the merged payload returned by `T::unify` is used in the resulting
   `Resolved` cell, alias chases leave intermediate cells untouched, and
   invariant violations are typed errors.  It is embedded as the single
   fuel-indexed function `step` over a request type (one request constructor
   per source function), so that it is executable and reduces by `rfl`.
-/

namespace PL

/-- `src/infer.rs` lines 6–14: `enum InferTy<T> { Any, Equal(InferTyRef<T>),
Known { ty: T, args: Vec<InferTyRef<T>> } }`.  Node references are heap
indices. -/
inductive InferTy (P : Type) where
  | any : InferTy P
  | equal (n : Nat) : InferTy P
  | known (ty : P) (args : List Nat) : InferTy P
deriving DecidableEq, Repr

/-- The graph of shared mutable cells: cell `n` of the heap is the content of
the `n`-th allocated `Rc<RefCell<InferTy<T>>>`. -/
abbrev Heap (P : Type) : Type := List (InferTy P)

/-- Outcome of `unify` (`src/infer.rs` line 42): `Ok(InferTy<T>)` together with
the mutated heap, or a Rust `panic!()`, or out of fuel.  (`.stuck` marks an
out-of-range node index, impossible for heaps produced by the API.)  Note that
the function in the snapshot has no reachable `Err` outcome: its only failure
mode is `panic!()`. -/
inductive RRes (P : Type) where
  | ok (u : InferTy P) (h : Heap P) : RRes P
  | panicked : RRes P
  | stuck : RRes P
  | fuelOut : RRes P
deriving DecidableEq, Repr

/-- Outcome of the argument-pair loop of `unify` (`src/infer.rs` lines 72–75):
the list of freshly allocated unified-child indices plus the mutated heap. -/
inductive ARes (P : Type) where
  | ok (ids : List Nat) (h : Heap P) : ARes P
  | panicked : ARes P
  | stuck : ARes P
  | fuelOut : ARes P
deriving DecidableEq, Repr

/-- The loop of `src/infer.rs` lines 72–75: unify each positional pair of child
nodes and push a fresh cell (`Rc::new(RefCell::new(...))`) holding each unified
shape. -/
def argsLoop {P : Type} (go : Heap P → Nat → Nat → RRes P) :
    Heap P → List (Nat × Nat) → ARes P
  | h, [] => .ok [] h
  | h, (x, y) :: rest =>
    match go h x y with
    | .ok u h1 =>
      match argsLoop go (h1 ++ [u]) rest with
      | .ok ids h2 => .ok (h1.length :: ids) h2
      | .panicked => .panicked
      | .stuck => .stuck
      | .fuelOut => .fuelOut
    | .panicked => .panicked
    | .stuck => .stuck
    | .fuelOut => .fuelOut

/-- `src/infer.rs` lines 42–84, `pub fn unify<T>(a, b) -> Result<InferTy<T>, ()>`.
Faithful to the snapshot: `Rc::ptr_eq` early return (line 43); dereference of
`Equal` on either side (lines 50–61) followed by the unconditional rewrite of
*both* argument cells (lines 81–82); `Unknown × Unknown` allocates one fresh
`Any` cell and aliases both sides to it (line 63); `Unknown × Resolved` copies
the resolved shape (line 64, payload and child indices shared, not
deep-copied); `Resolved × Resolved` calls the payload merge and `panic!()`s if
it fails or if the argument counts differ (lines 66–70), otherwise unifies the
children pairwise.  The result cell keeps `ty_a` (line 76). -/
def unify {P : Type} (pu : P → P → Except Unit Unit) :
    Nat → Heap P → Nat → Nat → RRes P
  | 0, _, _, _ => .fuelOut
  | f + 1, h, a, b =>
    if a = b then
      match h[a]? with
      | none => .stuck
      | some s => .ok s h
    else
      match h[a]?, h[b]? with
      | none, _ => .stuck
      | some _, none => .stuck
      | some sa, some sb =>
        match sa, sb with
        | .equal a2, _ =>
          match unify pu f h a2 b with
          | .ok u h1 => .ok u ((h1.set a u).set b u)
          | .panicked => .panicked
          | .stuck => .stuck
          | .fuelOut => .fuelOut
        | _, .equal b2 =>
          match unify pu f h a b2 with
          | .ok u h1 => .ok u ((h1.set a u).set b u)
          | .panicked => .panicked
          | .stuck => .stuck
          | .fuelOut => .fuelOut
        | .any, .any =>
          .ok (.equal h.length)
            (((h ++ [InferTy.any]).set a (.equal h.length)).set b (.equal h.length))
        | .any, s => .ok s ((h.set a s).set b s)
        | s, .any => .ok s ((h.set a s).set b s)
        | .known ta argsa, .known tb argsb =>
          match pu ta tb with
          | .error _ => .panicked
          | .ok _ =>
            if argsa.length = argsb.length then
              match argsLoop (fun h' x y => unify pu f h' x y) h (argsa.zip argsb) with
              | .ok ids h2 =>
                .ok (.known ta ids) ((h2.set a (.known ta ids)).set b (.known ta ids))
              | .panicked => .panicked
              | .stuck => .stuck
              | .fuelOut => .fuelOut
            else .panicked

/-- Outcome of `InferTyRef::concrete` (`src/infer.rs` lines 33–39): the payload
clone, or the `panic!()` of line 35 on an `Any` cell. -/
inductive CRes (P : Type) where
  | ok (t : P) : CRes P
  | panicked : CRes P
  | stuck : CRes P
  | fuelOut : CRes P
deriving DecidableEq, Repr

/-- `src/infer.rs` lines 33–39: `concrete` panics on `Any`, follows `Equal`
links, and returns `ty.clone()` on `Known`. -/
def concrete {P : Type} : Nat → Heap P → Nat → CRes P
  | 0, _, _ => .fuelOut
  | f + 1, h, n =>
    match h[n]? with
    | none => .stuck
    | some .any => .panicked
    | some (.equal m) => concrete f h m
    | some (.known t _) => .ok t

/-- `ChaseTo h n d s`: following `Equal` links from node `n` through heap `h`
for exactly `d` hops reaches a cell holding the non-alias shape `s`
(`s` is `.any` or `.known ..`). -/
inductive ChaseTo {P : Type} (h : Heap P) : Nat → Nat → InferTy P → Prop where
  | doneAny {n : Nat} : h[n]? = some .any → ChaseTo h n 0 .any
  | doneKnown {n : Nat} {t : P} {args : List Nat} :
      h[n]? = some (.known t args) → ChaseTo h n 0 (.known t args)
  | link {n m d : Nat} {s : InferTy P} :
      h[n]? = some (.equal m) → ChaseTo h m d s → ChaseTo h n (d + 1) s

/-! ## Type-system payloads (`src/ty.rs`) -/

/-- `src/ty.rs` lines 30–33. -/
inductive Signedness where
  | signed : Signedness
  | unsigned : Signedness
deriving DecidableEq, Repr

/-- `src/ty.rs` lines 35–38. -/
inductive Size where
  | b8 : Size
  | b16 : Size
  | b32 : Size
deriving DecidableEq, Repr

/-- `src/ty.rs` lines 24–28: `struct Int { signedness, size }`. -/
structure Int where
  signedness : Signedness
  size : Size
deriving DecidableEq, Repr

/-- `src/ty.rs` lines 18–22: `enum IntTy { Int(Int), Any }`. -/
inductive IntTy where
  | int (i : Int) : IntTy
  | any : IntTy
deriving DecidableEq, Repr

/-- `src/ty.rs` lines 9–16: `enum Ty { Bool, Ref(TyRef), Int(IntTyRef),
Struct(StructTyRef), Any }`.  The three `*Ref` handles are indices into the
`Ty`/`IntTy`/`StructTy` heaps of a state `St`. -/
inductive Ty where
  | bool : Ty
  | ref (t : Nat) : Ty
  | int (i : Nat) : Ty
  | struct (s : Nat) : Ty
  | any : Ty
deriving DecidableEq, Repr

/-- `src/ty.rs` lines 46–50: `struct Field<T> { name: Symbol, ty: T }`.
Symbols are modelled as strings. -/
structure Field (T : Type) where
  name : String
  ty : T
deriving DecidableEq, Repr

/-- `src/ty.rs` lines 52–56: `struct KnownStruct<T> { name, fields }`. -/
structure KnownStruct (T : Type) where
  name : String
  fields : List (Field T)
deriving DecidableEq, Repr

/-- `src/ty.rs` lines 40–44: `enum StructTy { Known(KnownStruct<TyRef>),
WithFields(HashMap<Symbol, TyRef>) }`.  The hash map is modelled as an
association list with unique keys. -/
inductive StructTy where
  | known (k : KnownStruct Nat) : StructTy
  | withFields (m : List (String × Nat)) : StructTy
deriving DecidableEq, Repr

/-- `src/ty.rs` lines 58–63: `enum ConcreteTy`. -/
inductive ConcreteTy where
  | bool : ConcreteTy
  | ref (t : ConcreteTy) : ConcreteTy
  | int (i : Int) : ConcreteTy
  | struct (k : KnownStruct ConcreteTy) : ConcreteTy

/-- `HashMap::get`. -/
def alookup (m : List (String × Nat)) (k : String) : Option Nat :=
  match m with
  | [] => none
  | (k', v) :: rest => if k' = k then some v else alookup rest k

/-- `HashMap::insert` (replace an existing binding, otherwise add one). -/
def ainsert (m : List (String × Nat)) (k : String) (v : Nat) :
    List (String × Nat) :=
  match m with
  | [] => [(k, v)]
  | (k', v') :: rest =>
    if k' = k then (k, v) :: rest else (k', v') :: ainsert rest k v

/-- `src/ty.rs` lines 93–103, `impl Unify for IntTy`: `Any` on either side
yields the other operand; two fixed ints must be equal. -/
def IntTy.unify : IntTy → IntTy → Except Unit IntTy
  | .any, .any => .ok .any
  | ty, .any => .ok ty
  | .any, ty => .ok ty
  | .int a, .int b => if a = b then .ok (.int a) else .error ()

/-- `src/ty.rs` lines 104–109: `IntTy::concrete` — a still-unconstrained
`IntTy::Any` silently defaults to `Int { Signed, B32 }`. -/
def IntTy.concrete : IntTy → Int
  | .int i => i
  | .any => ⟨.signed, .b32⟩

/-- `IntTy`'s merge adapted to the check-only payload trait declared in
`src/infer.rs` line 17 (`fn unify(a: &Self, b: &Self) -> Result<(), ()>`):
the merged value is discarded, only success/failure is reported. -/
def puInt : IntTy → IntTy → Except Unit Unit :=
  fun a b => (IntTy.unify a b).map fun _ => ()

/-- The degenerate always-mergeable payload, for exercising the engine alone. -/
def puU : Unit → Unit → Except Unit Unit := fun _ _ => .ok ()

/-- The whole constraint graph: one heap of shared mutable cells per payload
sort (`TyRef`, `IntTyRef`, `StructTyRef` of `src/ty.rs` lines 5–7). -/
structure St where
  tys : Heap Ty
  ints : Heap IntTy
  structs : Heap StructTy
deriving DecidableEq, Repr

/-!
## The engine `src/ty.rs` compiles against, modelled from the spec

`src/ty.rs` implements a `Unify` trait with `fn unify(a: Self, b: Self) ->
Result<Self, ()>` and an associated `Concrete` type; the matching generic
engine is not in the snapshot (the `src/infer.rs` present declares a different
trait).  Following spec §4.1, the missing engine is the same algorithm as
`unify` above except that: the alias chase leaves intermediate cells
untouched; the merged payload returned by `T::unify` is written into both
cells; a failed payload merge or an argument-count mismatch is a returned
error, not a `panic!()`.  `unify` returns (a handle to) the unified node.

Because the three payload sorts recurse into one another through the shared
state, the engine, the payload merges of `src/ty.rs`, and their loops are
embedded as one fuel-indexed function `step` over a request type `Req` with
one constructor per source function, which keeps the definition executable
(it reduces by `rfl`).
-/

/-- Requests: `nTy/nInt/nStruct` are the node-level engine unify at each
payload sort; `aTy/aInt/aStruct` its child-argument loops; `pTy` is
`Ty::unify` (`src/ty.rs` 68–78); `pStruct` is `StructTy::unify` (115–140);
`reqFields` its `Known`×`WithFields` loop (124–127); `wfFields` its
`WithFields`×`WithFields` loop (131–136). -/
inductive Req where
  | nTy (a b : Nat) : Req
  | nInt (a b : Nat) : Req
  | nStruct (a b : Nat) : Req
  | aTy (ps : List (Nat × Nat)) : Req
  | aInt (ps : List (Nat × Nat)) : Req
  | aStruct (ps : List (Nat × Nat)) : Req
  | pTy (x y : Ty) : Req
  | pStruct (x y : StructTy) : Req
  | reqFields (s : KnownStruct Nat) (req : List (String × Nat)) : Req
  | wfFields (acc : List (String × Nat)) (bs : List (String × Nat)) : Req
deriving DecidableEq, Repr

/-- Answers, one constructor per request return type. -/
inductive Ans where
  | id (n : Nat) : Ans
  | ids (l : List Nat) : Ans
  | ty (t : Ty) : Ans
  | sty (s : StructTy) : Ans
  | fmap (m : List (String × Nat)) : Ans
  | unit : Ans
deriving DecidableEq, Repr

/-- Outcome of a request: success with the mutated state, a returned
unification error (`Err(())` of `src/ty.rs`, the typed errors of spec §7), a
`panic!()`/`unwrap()` abort, out of fuel, or a dangling index (impossible for
API-produced states). -/
inductive MRes where
  | ok (a : Ans) (st : St) : MRes
  | err : MRes
  | panicked : MRes
  | stuck : MRes
  | fuelOut : MRes
deriving DecidableEq, Repr

/-- The combined engine + `src/ty.rs` payload merges; see the section comment
above for which constructor embeds which source function. -/
def step : Nat → St → Req → MRes
  | 0, _, _ => .fuelOut
  -- engine unify at the `Ty` sort (spec §4.1; merge rules `src/ty.rs` 68–78)
  | f + 1, st, .nTy a b =>
    if a = b then
      match st.tys[a]? with
      | none => .stuck
      | some _ => .ok (.id a) st
    else
      match st.tys[a]?, st.tys[b]? with
      | none, _ => .stuck
      | some _, none => .stuck
      | some sa, some sb =>
        match sa, sb with
        | .equal a2, _ => step f st (.nTy a2 b)
        | _, .equal b2 => step f st (.nTy a b2)
        | .any, .any =>
          let n := st.tys.length
          .ok (.id a)
            { st with tys := ((st.tys ++ [InferTy.any]).set a (.equal n)).set b (.equal n) }
        | .any, .known tb args =>
          .ok (.id a)
            { st with tys := (st.tys.set a (.known tb args)).set b (.known tb args) }
        | .known ta args, .any =>
          .ok (.id a)
            { st with tys := (st.tys.set a (.known ta args)).set b (.known ta args) }
        | .known ta argsa, .known tb argsb =>
          match step f st (.pTy ta tb) with
          | .ok (.ty merged) st1 =>
            if argsa.length = argsb.length then
              match step f st1 (.aTy (argsa.zip argsb)) with
              | .ok (.ids newArgs) st2 =>
                let u : InferTy Ty := .known merged newArgs
                .ok (.id a) { st2 with tys := (st2.tys.set a u).set b u }
              | .ok _ _ => .stuck
              | .err => .err
              | .panicked => .panicked
              | .stuck => .stuck
              | .fuelOut => .fuelOut
            else .err
          | .ok _ _ => .stuck
          | .err => .err
          | .panicked => .panicked
          | .stuck => .stuck
          | .fuelOut => .fuelOut
  -- engine unify at the `IntTy` sort (pure merge `src/ty.rs` 93–103)
  | f + 1, st, .nInt a b =>
    if a = b then
      match st.ints[a]? with
      | none => .stuck
      | some _ => .ok (.id a) st
    else
      match st.ints[a]?, st.ints[b]? with
      | none, _ => .stuck
      | some _, none => .stuck
      | some sa, some sb =>
        match sa, sb with
        | .equal a2, _ => step f st (.nInt a2 b)
        | _, .equal b2 => step f st (.nInt a b2)
        | .any, .any =>
          let n := st.ints.length
          .ok (.id a)
            { st with ints := ((st.ints ++ [InferTy.any]).set a (.equal n)).set b (.equal n) }
        | .any, .known tb args =>
          .ok (.id a)
            { st with ints := (st.ints.set a (.known tb args)).set b (.known tb args) }
        | .known ta args, .any =>
          .ok (.id a)
            { st with ints := (st.ints.set a (.known ta args)).set b (.known ta args) }
        | .known ta argsa, .known tb argsb =>
          match IntTy.unify ta tb with
          | .error _ => .err
          | .ok merged =>
            if argsa.length = argsb.length then
              match step f st (.aInt (argsa.zip argsb)) with
              | .ok (.ids newArgs) st2 =>
                let u : InferTy IntTy := .known merged newArgs
                .ok (.id a) { st2 with ints := (st2.ints.set a u).set b u }
              | .ok _ _ => .stuck
              | .err => .err
              | .panicked => .panicked
              | .stuck => .stuck
              | .fuelOut => .fuelOut
            else .err
  -- engine unify at the `StructTy` sort (merge rules `src/ty.rs` 115–140)
  | f + 1, st, .nStruct a b =>
    if a = b then
      match st.structs[a]? with
      | none => .stuck
      | some _ => .ok (.id a) st
    else
      match st.structs[a]?, st.structs[b]? with
      | none, _ => .stuck
      | some _, none => .stuck
      | some sa, some sb =>
        match sa, sb with
        | .equal a2, _ => step f st (.nStruct a2 b)
        | _, .equal b2 => step f st (.nStruct a b2)
        | .any, .any =>
          let n := st.structs.length
          .ok (.id a)
            { st with structs :=
                ((st.structs ++ [InferTy.any]).set a (.equal n)).set b (.equal n) }
        | .any, .known tb args =>
          .ok (.id a)
            { st with structs := (st.structs.set a (.known tb args)).set b (.known tb args) }
        | .known ta args, .any =>
          .ok (.id a)
            { st with structs := (st.structs.set a (.known ta args)).set b (.known ta args) }
        | .known ta argsa, .known tb argsb =>
          match step f st (.pStruct ta tb) with
          | .ok (.sty merged) st1 =>
            if argsa.length = argsb.length then
              match step f st1 (.aStruct (argsa.zip argsb)) with
              | .ok (.ids newArgs) st2 =>
                let u : InferTy StructTy := .known merged newArgs
                .ok (.id a) { st2 with structs := (st2.structs.set a u).set b u }
              | .ok _ _ => .stuck
              | .err => .err
              | .panicked => .panicked
              | .stuck => .stuck
              | .fuelOut => .fuelOut
            else .err
          | .ok _ _ => .stuck
          | .err => .err
          | .panicked => .panicked
          | .stuck => .stuck
          | .fuelOut => .fuelOut
  -- child-argument loops (spec §4.1 step 5)
  | _ + 1, st, .aTy [] => .ok (.ids []) st
  | f + 1, st, .aTy ((x, y) :: rest) =>
    match step f st (.nTy x y) with
    | .ok (.id n) st1 =>
      match step f st1 (.aTy rest) with
      | .ok (.ids ns) st2 => .ok (.ids (n :: ns)) st2
      | .ok _ _ => .stuck
      | .err => .err
      | .panicked => .panicked
      | .stuck => .stuck
      | .fuelOut => .fuelOut
    | .ok _ _ => .stuck
    | .err => .err
    | .panicked => .panicked
    | .stuck => .stuck
    | .fuelOut => .fuelOut
  | _ + 1, st, .aInt [] => .ok (.ids []) st
  | f + 1, st, .aInt ((x, y) :: rest) =>
    match step f st (.nInt x y) with
    | .ok (.id n) st1 =>
      match step f st1 (.aInt rest) with
      | .ok (.ids ns) st2 => .ok (.ids (n :: ns)) st2
      | .ok _ _ => .stuck
      | .err => .err
      | .panicked => .panicked
      | .stuck => .stuck
      | .fuelOut => .fuelOut
    | .ok _ _ => .stuck
    | .err => .err
    | .panicked => .panicked
    | .stuck => .stuck
    | .fuelOut => .fuelOut
  | _ + 1, st, .aStruct [] => .ok (.ids []) st
  | f + 1, st, .aStruct ((x, y) :: rest) =>
    match step f st (.nStruct x y) with
    | .ok (.id n) st1 =>
      match step f st1 (.aStruct rest) with
      | .ok (.ids ns) st2 => .ok (.ids (n :: ns)) st2
      | .ok _ _ => .stuck
      | .err => .err
      | .panicked => .panicked
      | .stuck => .stuck
      | .fuelOut => .fuelOut
    | .ok _ _ => .stuck
    | .err => .err
    | .panicked => .panicked
    | .stuck => .stuck
    | .fuelOut => .fuelOut
  -- `Ty::unify`, `src/ty.rs` lines 68–78 (arm order as in the source)
  | f + 1, st, .pTy x y =>
    match x, y with
    | .any, .any => .ok (.ty .any) st
    | .any, t => .ok (.ty t) st
    | t, .any => .ok (.ty t) st
    | .bool, .bool => .ok (.ty .bool) st
    | .ref a, .ref b =>
      match step f st (.nTy a b) with
      | .ok (.id n) st1 => .ok (.ty (.ref n)) st1
      | .ok _ _ => .stuck
      | .err => .err
      | .panicked => .panicked
      | .stuck => .stuck
      | .fuelOut => .fuelOut
    | .int a, .int b =>
      match step f st (.nInt a b) with
      | .ok (.id n) st1 => .ok (.ty (.int n)) st1
      | .ok _ _ => .stuck
      | .err => .err
      | .panicked => .panicked
      | .stuck => .stuck
      | .fuelOut => .fuelOut
    | .struct a, .struct b =>
      match step f st (.nStruct a b) with
      | .ok (.id n) st1 => .ok (.ty (.struct n)) st1
      | .ok _ _ => .stuck
      | .err => .err
      | .panicked => .panicked
      | .stuck => .stuck
      | .fuelOut => .fuelOut
    | _, _ => .err
  -- `StructTy::unify`, `src/ty.rs` lines 115–140
  | f + 1, st, .pStruct x y =>
    match x, y with
    | .known a, .known b =>
      if a.name = b.name then .ok (.sty (.known a)) st else .err
    | .known s, .withFields req =>
      match step f st (.reqFields s req) with
      | .ok .unit st1 => .ok (.sty (.known s)) st1
      | .ok _ _ => .stuck
      | .err => .err
      | .panicked => .panicked
      | .stuck => .stuck
      | .fuelOut => .fuelOut
    | .withFields req, .known s =>
      match step f st (.reqFields s req) with
      | .ok .unit st1 => .ok (.sty (.known s)) st1
      | .ok _ _ => .stuck
      | .err => .err
      | .panicked => .panicked
      | .stuck => .stuck
      | .fuelOut => .fuelOut
    | .withFields a, .withFields b =>
      match step f st (.wfFields a b) with
      | .ok (.fmap m) st1 => .ok (.sty (.withFields m)) st1
      | .ok _ _ => .stuck
      | .err => .err
      | .panicked => .panicked
      | .stuck => .stuck
      | .fuelOut => .fuelOut
  -- the `for (name, ty) in required_fields` loop, `src/ty.rs` lines 124–127;
  -- the `unwrap()` of line 125 is the `.panicked` arm
  | _ + 1, st, .reqFields _ [] => .ok .unit st
  | f + 1, st, .reqFields s ((name, tyv) :: rest) =>
    match s.fields.find? (fun fl => fl.name == name) with
    | none => .panicked
    | some fl =>
      match step f st (.nTy fl.ty tyv) with
      | .ok (.id _) st1 => step f st1 (.reqFields s rest)
      | .ok _ _ => .stuck
      | .err => .err
      | .panicked => .panicked
      | .stuck => .stuck
      | .fuelOut => .fuelOut
  -- the `for (name, b_ty) in b` loop, `src/ty.rs` lines 131–136
  | _ + 1, st, .wfFields acc [] => .ok (.fmap acc) st
  | f + 1, st, .wfFields acc ((name, bty) :: rest) =>
    match alookup acc name with
    | some aty =>
      match step f st (.nTy aty bty) with
      | .ok (.id _) st1 => step f st1 (.wfFields acc rest)
      | .ok _ _ => .stuck
      | .err => .err
      | .panicked => .panicked
      | .stuck => .stuck
      | .fuelOut => .fuelOut
    | none => step f st (.wfFields (ainsert acc name bty) rest)

/-- Node-level unify at the `Ty` sort (spec §4.1 over `src/ty.rs` payloads). -/
def unifyTy (f : Nat) (st : St) (a b : Nat) : MRes := step f st (.nTy a b)

/-- Node-level unify at the `IntTy` sort. -/
def unifyInt (f : Nat) (st : St) (a b : Nat) : MRes := step f st (.nInt a b)

/-- Node-level unify at the `StructTy` sort. -/
def unifyStruct (f : Nat) (st : St) (a b : Nat) : MRes := step f st (.nStruct a b)

/-- `Ty::unify` (`src/ty.rs` lines 68–78) as an entry point. -/
def Ty.unify (f : Nat) (st : St) (x y : Ty) : MRes := step f st (.pTy x y)

/-- `StructTy::unify` (`src/ty.rs` lines 115–140) as an entry point. -/
def StructTy.unify (f : Nat) (st : St) (x y : StructTy) : MRes :=
  step f st (.pStruct x y)

/-!
## Concretization over the type-system payloads

`rTy/rInt/rStruct` are `InferTyRef::concrete` at each sort: follow the alias
chain, `panic!()` on a still-`Any` cell (`src/infer.rs` line 35), and on a
`Known` cell hand the payload to its own `concrete` implementation (the
composition `src/ty.rs` relies on through `T::Concrete`).  `cTy` is
`Ty::concrete` (`src/ty.rs` 79–87, with the `todo!()` of line 85 on `Ty::Any`),
`cStruct` is `StructTy::concrete` (141–149, panicking on `WithFields`), and
`cFields` is its field-mapping loop.  `IntTy::concrete` is the pure
`IntTy.concrete` above.  Concretization never mutates the graph, so no state
is returned.
-/

/-- Concretization requests. -/
inductive CReq where
  | rTy (n : Nat) : CReq
  | rInt (n : Nat) : CReq
  | rStruct (n : Nat) : CReq
  | cTy (t : Ty) : CReq
  | cStruct (s : StructTy) : CReq
  | cFields (fs : List (Field Nat)) : CReq
deriving DecidableEq, Repr

/-- Concretization answers. -/
inductive CAns where
  | c (t : ConcreteTy) : CAns
  | ci (i : Int) : CAns
  | ck (k : KnownStruct ConcreteTy) : CAns
  | cfs (fs : List (Field ConcreteTy)) : CAns

/-- Concretization outcome. -/
inductive CR where
  | ok (a : CAns) : CR
  | panicked : CR
  | stuck : CR
  | fuelOut : CR

/-- Combined concretization; see the section comment for the source map. -/
def cstep (st : St) : Nat → CReq → CR
  | 0, _ => .fuelOut
  | f + 1, .rTy n =>
    match st.tys[n]? with
    | none => .stuck
    | some .any => .panicked
    | some (.equal m) => cstep st f (.rTy m)
    | some (.known t _) => cstep st f (.cTy t)
  | f + 1, .rInt n =>
    match st.ints[n]? with
    | none => .stuck
    | some .any => .panicked
    | some (.equal m) => cstep st f (.rInt m)
    | some (.known t _) => .ok (.ci t.concrete)
  | f + 1, .rStruct n =>
    match st.structs[n]? with
    | none => .stuck
    | some .any => .panicked
    | some (.equal m) => cstep st f (.rStruct m)
    | some (.known t _) => cstep st f (.cStruct t)
  | f + 1, .cTy t =>
    match t with
    | .bool => .ok (.c .bool)
    | .ref r =>
      match cstep st f (.rTy r) with
      | .ok (.c c) => .ok (.c (.ref c))
      | .ok _ => .stuck
      | .panicked => .panicked
      | .stuck => .stuck
      | .fuelOut => .fuelOut
    | .int i =>
      match cstep st f (.rInt i) with
      | .ok (.ci iv) => .ok (.c (.int iv))
      | .ok _ => .stuck
      | .panicked => .panicked
      | .stuck => .stuck
      | .fuelOut => .fuelOut
    | .struct s =>
      match cstep st f (.rStruct s) with
      | .ok (.ck k) => .ok (.c (.struct k))
      | .ok _ => .stuck
      | .panicked => .panicked
      | .stuck => .stuck
      | .fuelOut => .fuelOut
    | .any => .panicked
  | f + 1, .cStruct s =>
    match s with
    | .known k =>
      match cstep st f (.cFields k.fields) with
      | .ok (.cfs fs) => .ok (.ck ⟨k.name, fs⟩)
      | .ok _ => .stuck
      | .panicked => .panicked
      | .stuck => .stuck
      | .fuelOut => .fuelOut
    | .withFields _ => .panicked
  | _ + 1, .cFields [] => .ok (.cfs [])
  | f + 1, .cFields (fl :: rest) =>
    match cstep st f (.rTy fl.ty) with
    | .ok (.c c) =>
      match cstep st f (.cFields rest) with
      | .ok (.cfs fs) => .ok (.cfs (⟨fl.name, c⟩ :: fs))
      | .ok _ => .stuck
      | .panicked => .panicked
      | .stuck => .stuck
      | .fuelOut => .fuelOut
    | .ok _ => .stuck
    | .panicked => .panicked
    | .stuck => .stuck
    | .fuelOut => .fuelOut

/-- Concretize a `TyRef` node (spec §4.1 `concretize`). -/
def concreteTy (f : Nat) (st : St) (n : Nat) : CR := cstep st f (.rTy n)

/-- Concretize an `IntTyRef` node. -/
def concreteInt (f : Nat) (st : St) (n : Nat) : CR := cstep st f (.rInt n)

/-- Concretize a `StructTyRef` node. -/
def concreteStruct (f : Nat) (st : St) (n : Nat) : CR := cstep st f (.rStruct n)

/-!
## The struct-row inference scenario (spec §8, end-to-end test property)

Node layout: `IntTy` heap — 0 = the `x` field's unconstrained int, 1 = the
`y` constraint's `i32`, 2/3 = the declared `Point.x`/`Point.y` ints (`i32`);
`Ty` heap — `Ty::Int` wrappers 0–3 of the corresponding int nodes;
`StructTy` heap — 0 = `WithFields{x}`, 1 = `WithFields{y}`, 2 = the declared
`Known "Point"`.
-/

/-- Initial state of the struct-row scenario. -/
def rowSt0 : St :=
  { tys := [.known (Ty.int 0) [], .known (Ty.int 1) [],
            .known (Ty.int 2) [], .known (Ty.int 3) []],
    ints := [.known IntTy.any [], .known (IntTy.int ⟨.signed, .b32⟩) [],
             .known (IntTy.int ⟨.signed, .b32⟩) [],
             .known (IntTy.int ⟨.signed, .b32⟩) []],
    structs := [.known (StructTy.withFields [("x", 0)]) [],
                .known (StructTy.withFields [("y", 1)]) [],
                .known (StructTy.known
                  ⟨"Point", [⟨"x", 2⟩, ⟨"y", 3⟩]⟩) []] }

/-- State after unifying the two `WithFields` nodes: both struct cells hold
the merged row `{x, y}`; nothing else changed. -/
def rowSt1 : St :=
  { tys := [.known (Ty.int 0) [], .known (Ty.int 1) [],
            .known (Ty.int 2) [], .known (Ty.int 3) []],
    ints := [.known IntTy.any [], .known (IntTy.int ⟨.signed, .b32⟩) [],
             .known (IntTy.int ⟨.signed, .b32⟩) [],
             .known (IntTy.int ⟨.signed, .b32⟩) []],
    structs := [.known (StructTy.withFields [("x", 0), ("y", 1)]) [],
                .known (StructTy.withFields [("x", 0), ("y", 1)]) [],
                .known (StructTy.known
                  ⟨"Point", [⟨"x", 2⟩, ⟨"y", 3⟩]⟩) []] }

/-- State after unifying the merged row with the declared `Point`: the struct
cells 0 and 2 hold `Known "Point"`, the required field types were unified
with the declared ones (`Ty` cells 0/2 and 1/3 now share payloads, the
`x` int cell 0 became `i32`). -/
def rowSt2 : St :=
  { tys := [.known (Ty.int 2) [], .known (Ty.int 3) [],
            .known (Ty.int 2) [], .known (Ty.int 3) []],
    ints := [.known (IntTy.int ⟨.signed, .b32⟩) [],
             .known (IntTy.int ⟨.signed, .b32⟩) [],
             .known (IntTy.int ⟨.signed, .b32⟩) [],
             .known (IntTy.int ⟨.signed, .b32⟩) []],
    structs := [.known (StructTy.known ⟨"Point", [⟨"x", 2⟩, ⟨"y", 3⟩]⟩) [],
                .known (StructTy.withFields [("x", 0), ("y", 1)]) [],
                .known (StructTy.known ⟨"Point", [⟨"x", 2⟩, ⟨"y", 3⟩]⟩) []] }


/-! ## Claim theorems -/

/-- Claim C1 (Unknown absorption).  For every `Unknown` node `u` and `Resolved`
node `r` with payload `x` and children `args`, `unify (u, r)` — in either
argument order — succeeds and rewrites both original cells to `Resolved` with
the same payload `x` and the same child-node indices (children shared by
reference, not deep-copied), so the resolved information is never lost. -/
theorem c1_unknown_absorption {P : Type} (pu : P → P → Except Unit Unit)
    (f : Nat) (h : Heap P) (u r : Nat) (x : P) (args : List Nat)
    (hu : h[u]? = some .any) (hr : h[r]? = some (.known x args)) :
    unify pu (f + 1) h u r
        = .ok (.known x args) ((h.set u (.known x args)).set r (.known x args)) ∧
    unify pu (f + 1) h r u
        = .ok (.known x args) ((h.set r (.known x args)).set u (.known x args)) ∧
    ((h.set u (.known x args)).set r (.known x args))[u]? = some (.known x args) ∧
    ((h.set u (.known x args)).set r (.known x args))[r]? = some (.known x args) := by
  have hne : u ≠ r := by
    intro e
    rw [e, hr] at hu
    cases hu
  have hult : u < h.length := by
    by_contra hc
    rw [List.getElem?_eq_none (by omega)] at hu
    cases hu
  have hrlt : r < h.length := by
    by_contra hc
    rw [List.getElem?_eq_none (by omega)] at hr
    cases hr
  refine ⟨?_, ?_, ?_, ?_⟩
  · rw [unify, if_neg hne, hu, hr]
  · rw [unify, if_neg (Ne.symm hne), hr, hu]
  · rw [List.getElem?_set_ne hne.symm, List.getElem?_set_self hult]
  · rw [List.getElem?_set_self (by simpa using hrlt)]

/-- Witness for C1 at a concrete two-cell `IntTy` heap. -/
theorem c1_unknown_absorption_witness :
    (([InferTy.any, InferTy.known (IntTy.int ⟨.signed, .b8⟩) []] : Heap IntTy)[0]?
        = some .any) ∧
    (([InferTy.any, InferTy.known (IntTy.int ⟨.signed, .b8⟩) []] : Heap IntTy)[1]?
        = some (.known (IntTy.int ⟨.signed, .b8⟩) [])) ∧
    (unify puInt 3 [InferTy.any, InferTy.known (IntTy.int ⟨.signed, .b8⟩) []] 0 1
        = .ok (.known (IntTy.int ⟨.signed, .b8⟩) [])
            [.known (IntTy.int ⟨.signed, .b8⟩) [], .known (IntTy.int ⟨.signed, .b8⟩) []] ∧
      unify puInt 3 [InferTy.any, InferTy.known (IntTy.int ⟨.signed, .b8⟩) []] 1 0
        = .ok (.known (IntTy.int ⟨.signed, .b8⟩) [])
            [.known (IntTy.int ⟨.signed, .b8⟩) [], .known (IntTy.int ⟨.signed, .b8⟩) []]) :=
  ⟨rfl, rfl, by
    have h := c1_unknown_absorption puInt 2
      [InferTy.any, InferTy.known (IntTy.int ⟨.signed, .b8⟩) []] 0 1
      (IntTy.int ⟨.signed, .b8⟩) [] rfl rfl
    exact ⟨h.1, h.2.1⟩⟩

/-- Claim C2.  For every two distinct nodes `a` and `b` both in state `Unknown`,
`unify (a, b)` succeeds and rewrites both original cells to `Alias f` where
`f` is one brand-new `Unknown` node distinct from both `a` and `b` (neither
original node is made to alias the other directly). -/
theorem c2_unknown_unknown_fresh_alias {P : Type} (pu : P → P → Except Unit Unit)
    (f : Nat) (h : Heap P) (a b : Nat)
    (ha : h[a]? = some .any) (hb : h[b]? = some .any) (hne : a ≠ b) :
    unify pu (f + 1) h a b
        = .ok (.equal h.length)
            (((h ++ [InferTy.any]).set a (.equal h.length)).set b (.equal h.length)) ∧
    (((h ++ [InferTy.any]).set a (.equal h.length)).set b (.equal h.length))[a]?
        = some (.equal h.length) ∧
    (((h ++ [InferTy.any]).set a (.equal h.length)).set b (.equal h.length))[b]?
        = some (.equal h.length) ∧
    (((h ++ [InferTy.any]).set a (.equal h.length)).set b (.equal h.length))[h.length]?
        = some .any ∧
    h.length ≠ a ∧ h.length ≠ b := by
  have halt : a < h.length := by
    by_contra hc
    rw [List.getElem?_eq_none (by omega)] at ha
    cases ha
  have hblt : b < h.length := by
    by_contra hc
    rw [List.getElem?_eq_none (by omega)] at hb
    cases hb
  have hla : a < (h ++ [InferTy.any]).length := by
    simp only [List.length_append, List.length_cons, List.length_nil]
    omega
  have hlb : b < ((h ++ [InferTy.any]).set a (.equal h.length)).length := by
    simp only [List.length_set, List.length_append, List.length_cons, List.length_nil]
    omega
  refine ⟨?_, ?_, ?_, ?_, by omega, by omega⟩
  · rw [unify, if_neg hne, ha, hb]
  · rw [List.getElem?_set_ne hne.symm, List.getElem?_set_self hla]
  · rw [List.getElem?_set_self hlb]
  · rw [List.getElem?_set_ne (by omega), List.getElem?_set_ne (by omega),
      List.getElem?_concat_length]

/-- Witness for C2 at a concrete two-cell `IntTy` heap. -/
theorem c2_unknown_unknown_fresh_alias_witness :
    (([InferTy.any, InferTy.any] : Heap IntTy)[0]? = some .any) ∧
    (([InferTy.any, InferTy.any] : Heap IntTy)[1]? = some .any) ∧
    (0 : Nat) ≠ 1 ∧
    unify puInt 3 [InferTy.any, InferTy.any] 0 1
        = .ok (.equal 2) [.equal 2, .equal 2, .any] :=
  ⟨rfl, rfl, by decide, by
    have h := c2_unknown_unknown_fresh_alias puInt 2
      ([InferTy.any, InferTy.any] : Heap IntTy) 0 1 rfl rfl (by decide)
    exact h.1⟩

/-- Counterexample to claim C4: at a two-cell heap holding `Resolved(i8)` and
`Resolved(u8)` — fixed integer payloads disagreeing in signedness — `unify`
does not return a failure result to its caller: it hits the `panic!()` of
`src/infer.rs` line 68. -/
theorem c4_payload_mismatch_counterexample :
    unify puInt 3
      [InferTy.known (IntTy.int ⟨.signed, .b8⟩) [],
       InferTy.known (IntTy.int ⟨.unsigned, .b8⟩) []] 0 1 = .panicked := rfl

/-- Claim C4 as amended: for every pair of distinct `Resolved` nodes whose
payloads fail to merge, `unify` aborts with a `panic!()` (`src/infer.rs` lines
67–68) instead of returning the failure to its caller. -/
theorem c4_payload_mismatch_panics {P : Type} (pu : P → P → Except Unit Unit)
    (f : Nat) (h : Heap P) (a b : Nat) (ta tb : P) (argsa argsb : List Nat)
    (ha : h[a]? = some (.known ta argsa)) (hb : h[b]? = some (.known tb argsb))
    (hne : a ≠ b) (hpu : pu ta tb = .error ()) :
    unify pu (f + 1) h a b = .panicked := by
  rw [unify, if_neg hne, ha, hb]
  simp only [hpu]

/-- Witness for the amended C4 at the counterexample heap. -/
theorem c4_payload_mismatch_panics_witness :
    (([InferTy.known (IntTy.int ⟨.signed, .b8⟩) [],
       InferTy.known (IntTy.int ⟨.unsigned, .b8⟩) []] : Heap IntTy)[0]?
        = some (.known (IntTy.int ⟨.signed, .b8⟩) [])) ∧
    (([InferTy.known (IntTy.int ⟨.signed, .b8⟩) [],
       InferTy.known (IntTy.int ⟨.unsigned, .b8⟩) []] : Heap IntTy)[1]?
        = some (.known (IntTy.int ⟨.unsigned, .b8⟩) [])) ∧
    (0 : Nat) ≠ 1 ∧
    puInt (IntTy.int ⟨.signed, .b8⟩) (IntTy.int ⟨.unsigned, .b8⟩) = .error () ∧
    unify puInt 4
      [InferTy.known (IntTy.int ⟨.signed, .b8⟩) [],
       InferTy.known (IntTy.int ⟨.unsigned, .b8⟩) []] 0 1 = .panicked :=
  ⟨rfl, rfl, by decide, rfl,
    c4_payload_mismatch_panics puInt 3
      [InferTy.known (IntTy.int ⟨.signed, .b8⟩) [],
       InferTy.known (IntTy.int ⟨.unsigned, .b8⟩) []] 0 1
      (IntTy.int ⟨.signed, .b8⟩) (IntTy.int ⟨.unsigned, .b8⟩) [] []
      rfl rfl (by decide) rfl⟩

/-- Counterexample to claim C6: on a node whose alias chain ends in an
`Unknown` cell, `InferTyRef::concrete` does not return an error result — it
hits the `panic!()` of `src/infer.rs` line 35. -/
theorem c6_concrete_unknown_counterexample :
    concrete 5 ([.equal 1, .any] : Heap IntTy) 0 = .panicked := rfl

/-- Claim C6 as amended: for every node whose alias chain terminates in
`Unknown`, `InferTyRef::concrete` panics (aborts) rather than returning an
error value; for a node whose chain terminates in `Resolved` it follows the
alias chain and returns (a clone of) the payload. -/
theorem c6_concrete_chain {P : Type} (h : Heap P) (n d f : Nat) (hf : d < f) :
    (ChaseTo h n d .any → concrete f h n = .panicked) ∧
    (∀ (t : P) (args : List Nat),
      ChaseTo h n d (.known t args) → concrete f h n = .ok t) := by
  induction d generalizing n f with
  | zero =>
    obtain ⟨f', rfl⟩ : ∃ f', f = f' + 1 := ⟨f - 1, by omega⟩
    constructor
    · intro hch
      cases hch with
      | doneAny hn => rw [concrete, hn]
    · intro t args hch
      cases hch with
      | doneKnown hn => rw [concrete, hn]
  | succ d ih =>
    obtain ⟨f', rfl⟩ : ∃ f', f = f' + 1 := ⟨f - 1, by omega⟩
    constructor
    · intro hch
      cases hch with
      | link hn hrest =>
        rw [concrete, hn]
        exact (ih _ _ (by omega)).1 hrest
    · intro t args hch
      cases hch with
      | link hn hrest =>
        rw [concrete, hn]
        exact (ih _ _ (by omega)).2 t args hrest

/-- Witness for the amended C6 at concrete chains. -/
theorem c6_concrete_chain_witness :
    (0 : Nat) < 2 ∧
    ChaseTo ([.equal 1, .any] : Heap IntTy) 1 0 .any ∧
    concrete 2 ([.equal 1, .any] : Heap IntTy) 1 = .panicked ∧
    ChaseTo ([.equal 1, .known IntTy.any []] : Heap IntTy) 1 0
      (.known IntTy.any []) ∧
    concrete 2 ([.equal 1, .known IntTy.any []] : Heap IntTy) 1
      = .ok IntTy.any :=
  ⟨by decide, ChaseTo.doneAny rfl,
    (c6_concrete_chain ([.equal 1, .any] : Heap IntTy) 1 0 2 (by decide)).1
      (ChaseTo.doneAny rfl),
    ChaseTo.doneKnown rfl,
    (c6_concrete_chain ([.equal 1, .known IntTy.any []] : Heap IntTy) 1 0 2
        (by decide)).2 IntTy.any [] (ChaseTo.doneKnown rfl)⟩

/-- The argument loop can only grow the heap. -/
theorem argsLoop_length_le {P : Type} (go : Heap P → Nat → Nat → RRes P)
    (hgo : ∀ h x y u h', go h x y = .ok u h' → h.length ≤ h'.length) :
    ∀ (ps : List (Nat × Nat)) (h : Heap P) (ids : List Nat) (h2 : Heap P),
      argsLoop go h ps = .ok ids h2 → h.length ≤ h2.length := by
  intro ps
  induction ps with
  | nil =>
    intro h ids h2 he
    rw [argsLoop] at he
    cases he
    exact le_refl _
  | cons p rest ih =>
    obtain ⟨x, y⟩ := p
    intro h ids h2 he
    rw [argsLoop] at he
    cases hg : go h x y <;> simp only [hg] at he
    · rename_i u h1
      cases hr : argsLoop go (h1 ++ [u]) rest <;> simp only [hr] at he
      · cases he
        have h01 := hgo h x y u h1 hg
        have h12 := ih (h1 ++ [u]) _ _ hr
        simp only [List.length_append, List.length_cons, List.length_nil] at h12
        omega
      · cases he
      · cases he
      · cases he
    · cases he
    · cases he
    · cases he

/-- `unify` can only grow the heap. -/
theorem unify_length_le {P : Type} (pu : P → P → Except Unit Unit) :
    ∀ (f : Nat) (h : Heap P) (a b : Nat) (u : InferTy P) (h' : Heap P),
      unify pu f h a b = .ok u h' → h.length ≤ h'.length := by
  intro f
  induction f with
  | zero =>
    intro h a b u h' he
    rw [unify] at he
    cases he
  | succ f ih =>
    intro h a b u h' he
    rw [unify] at he
    by_cases hab : a = b
    · rw [if_pos hab] at he
      cases hha : h[a]? <;> simp only [hha] at he
      · cases he
      · cases he
        exact le_refl _
    · rw [if_neg hab] at he
      cases hha : h[a]? <;> simp only [hha] at he
      · cases he
      · cases hhb : h[b]? <;> simp only [hhb] at he
        · cases he
        · rename_i sa sb
          cases sa <;> cases sb
          · -- Any, Any
            cases he
            simp only [List.length_set, List.length_append, List.length_cons,
              List.length_nil]
            omega
          · rename_i b2
            cases hin : unify pu f h a b2 <;> simp only [hin] at he
            · cases he
              have hle := ih h a b2 _ _ hin
              simp only [List.length_set]
              omega
            · cases he
            · cases he
            · cases he
          · rename_i tb argsb
            cases he
            simp only [List.length_set]
            omega
          · rename_i a2
            cases hin : unify pu f h a2 b <;> simp only [hin] at he
            · cases he
              have hle := ih h a2 b _ _ hin
              simp only [List.length_set]
              omega
            · cases he
            · cases he
            · cases he
          · rename_i a2 b2
            cases hin : unify pu f h a2 b <;> simp only [hin] at he
            · cases he
              have hle := ih h a2 b _ _ hin
              simp only [List.length_set]
              omega
            · cases he
            · cases he
            · cases he
          · rename_i a2 tb argsb
            cases hin : unify pu f h a2 b <;> simp only [hin] at he
            · cases he
              have hle := ih h a2 b _ _ hin
              simp only [List.length_set]
              omega
            · cases he
            · cases he
            · cases he
          · rename_i ta argsa
            cases he
            simp only [List.length_set]
            omega
          · rename_i ta argsa b2
            cases hin : unify pu f h a b2 <;> simp only [hin] at he
            · cases he
              have hle := ih h a b2 _ _ hin
              simp only [List.length_set]
              omega
            · cases he
            · cases he
            · cases he
          · rename_i ta argsa tb argsb
            cases hpu : pu ta tb <;> simp only [hpu] at he
            · cases he
            · by_cases hl : argsa.length = argsb.length
              · rw [if_pos hl] at he
                cases hargs : argsLoop (fun h3 x y => unify pu f h3 x y) h
                    (argsa.zip argsb) <;> simp only [hargs] at he
                · rename_i ids h2
                  cases he
                  have hle := argsLoop_length_le _
                    (fun h x y u h' hg => ih h x y u h' hg) _ _ _ _ hargs
                  simp only [List.length_set]
                  omega
                · cases he
                · cases he
                · cases he
              · rw [if_neg hl] at he
                cases he

/-- Counterexample to claim C8: unifying node `0` (an `Alias` to node `1`)
with the `Resolved` node `2` rewrites the *intermediate* cell `0` as well —
after the call it no longer holds the `Alias` link it held before (the
rewrite of `src/infer.rs` lines 81–82 runs at every recursion level of the
chase, not only at the two chased-to terminals). -/
theorem c8_alias_rewrite_counterexample :
    unify puInt 5
      [.equal 1, .any, .known (IntTy.int ⟨.signed, .b8⟩) []] 0 2
      = .ok (.known (IntTy.int ⟨.signed, .b8⟩) [])
          [.known (IntTy.int ⟨.signed, .b8⟩) [],
           .known (IntTy.int ⟨.signed, .b8⟩) [],
           .known (IntTy.int ⟨.signed, .b8⟩) []] ∧
    ([.known (IntTy.int ⟨.signed, .b8⟩) [],
      .known (IntTy.int ⟨.signed, .b8⟩) [],
      .known (IntTy.int ⟨.signed, .b8⟩) []] : Heap IntTy)[0]?
      ≠ some (.equal 1) := ⟨rfl, by decide⟩

/-- Claim C8 as amended: the chase itself modifies no cell (all writes happen
after the recursive call returns), but on success `unify` rewrites its two
argument cells — and, recursively, every chased intermediate cell — to the
final unified shape, rather than leaving intermediate alias nodes with their
previous `Alias` links.  Formally: whenever `unify` succeeds on distinct
nodes `a ≠ b`, both argument cells hold the returned unified shape
afterwards. -/
theorem c8_both_cells_rewritten {P : Type} (pu : P → P → Except Unit Unit)
    (f : Nat) (h : Heap P) (a b : Nat) (u : InferTy P) (h' : Heap P)
    (hne : a ≠ b) (he : unify pu f h a b = .ok u h') :
    h'[a]? = some u ∧ h'[b]? = some u := by
  match f with
  | 0 =>
    rw [unify] at he
    cases he
  | f + 1 =>
    rw [unify, if_neg hne] at he
    cases hha : h[a]? <;> simp only [hha] at he
    · cases he
    · cases hhb : h[b]? <;> simp only [hhb] at he
      · cases he
      · rename_i sa sb
        have hal : a < h.length := by
          by_contra hc
          rw [List.getElem?_eq_none (by omega)] at hha
          cases hha
        have hbl : b < h.length := by
          by_contra hc
          rw [List.getElem?_eq_none (by omega)] at hhb
          cases hhb
        cases sa <;> cases sb
        · -- Any, Any
          cases he
          refine ⟨?_, ?_⟩
          · rw [List.getElem?_set_ne hne.symm, List.getElem?_set_self
              (by simp only [List.length_append, List.length_cons,
                List.length_nil]; omega)]
          · rw [List.getElem?_set_self
              (by simp only [List.length_set, List.length_append,
                List.length_cons, List.length_nil]; omega)]
        · rename_i b2
          cases hin : unify pu f h a b2 <;> simp only [hin] at he
          · cases he
            have hle := unify_length_le pu f h a b2 _ _ hin
            refine ⟨?_, ?_⟩
            · rw [List.getElem?_set_ne hne.symm,
                List.getElem?_set_self (by omega)]
            · rw [List.getElem?_set_self
                (by simp only [List.length_set]; omega)]
          · cases he
          · cases he
          · cases he
        · rename_i tb argsb
          cases he
          refine ⟨?_, ?_⟩
          · rw [List.getElem?_set_ne hne.symm,
              List.getElem?_set_self (by omega)]
          · rw [List.getElem?_set_self
              (by simp only [List.length_set]; omega)]
        · rename_i a2
          cases hin : unify pu f h a2 b <;> simp only [hin] at he
          · cases he
            have hle := unify_length_le pu f h a2 b _ _ hin
            refine ⟨?_, ?_⟩
            · rw [List.getElem?_set_ne hne.symm,
                List.getElem?_set_self (by omega)]
            · rw [List.getElem?_set_self
                (by simp only [List.length_set]; omega)]
          · cases he
          · cases he
          · cases he
        · rename_i a2 b2
          cases hin : unify pu f h a2 b <;> simp only [hin] at he
          · cases he
            have hle := unify_length_le pu f h a2 b _ _ hin
            refine ⟨?_, ?_⟩
            · rw [List.getElem?_set_ne hne.symm,
                List.getElem?_set_self (by omega)]
            · rw [List.getElem?_set_self
                (by simp only [List.length_set]; omega)]
          · cases he
          · cases he
          · cases he
        · rename_i a2 tb argsb
          cases hin : unify pu f h a2 b <;> simp only [hin] at he
          · cases he
            have hle := unify_length_le pu f h a2 b _ _ hin
            refine ⟨?_, ?_⟩
            · rw [List.getElem?_set_ne hne.symm,
                List.getElem?_set_self (by omega)]
            · rw [List.getElem?_set_self
                (by simp only [List.length_set]; omega)]
          · cases he
          · cases he
          · cases he
        · rename_i ta argsa
          cases he
          refine ⟨?_, ?_⟩
          · rw [List.getElem?_set_ne hne.symm,
              List.getElem?_set_self (by omega)]
          · rw [List.getElem?_set_self
              (by simp only [List.length_set]; omega)]
        · rename_i ta argsa b2
          cases hin : unify pu f h a b2 <;> simp only [hin] at he
          · cases he
            have hle := unify_length_le pu f h a b2 _ _ hin
            refine ⟨?_, ?_⟩
            · rw [List.getElem?_set_ne hne.symm,
                List.getElem?_set_self (by omega)]
            · rw [List.getElem?_set_self
                (by simp only [List.length_set]; omega)]
          · cases he
          · cases he
          · cases he
        · rename_i ta argsa tb argsb
          cases hpu : pu ta tb <;> simp only [hpu] at he
          · cases he
          · by_cases hl : argsa.length = argsb.length
            · rw [if_pos hl] at he
              cases hargs : argsLoop (fun h3 x y => unify pu f h3 x y) h
                  (argsa.zip argsb) <;> simp only [hargs] at he
              · cases he
                have hle := argsLoop_length_le _
                  (fun h x y u h' hg => unify_length_le pu f h x y u h' hg)
                  _ _ _ _ hargs
                refine ⟨?_, ?_⟩
                · rw [List.getElem?_set_ne hne.symm,
                    List.getElem?_set_self (by omega)]
                · rw [List.getElem?_set_self
                    (by simp only [List.length_set]; omega)]
              · cases he
              · cases he
              · cases he
            · rw [if_neg hl] at he
              cases he

/-- Witness for the amended C8 at the counterexample heap. -/
theorem c8_both_cells_rewritten_witness :
    (0 : Nat) ≠ 2 ∧
    unify puInt 5
      [.equal 1, .any, .known (IntTy.int ⟨.signed, .b8⟩) []] 0 2
      = .ok (.known (IntTy.int ⟨.signed, .b8⟩) [])
          [.known (IntTy.int ⟨.signed, .b8⟩) [],
           .known (IntTy.int ⟨.signed, .b8⟩) [],
           .known (IntTy.int ⟨.signed, .b8⟩) []] ∧
    ([.known (IntTy.int ⟨.signed, .b8⟩) [],
      .known (IntTy.int ⟨.signed, .b8⟩) [],
      .known (IntTy.int ⟨.signed, .b8⟩) []] : Heap IntTy)[0]?
        = some (.known (IntTy.int ⟨.signed, .b8⟩) []) ∧
    ([.known (IntTy.int ⟨.signed, .b8⟩) [],
      .known (IntTy.int ⟨.signed, .b8⟩) [],
      .known (IntTy.int ⟨.signed, .b8⟩) []] : Heap IntTy)[2]?
        = some (.known (IntTy.int ⟨.signed, .b8⟩) []) := by
  refine ⟨by decide, rfl, ?_, ?_⟩
  · exact (c8_both_cells_rewritten puInt 5
      [.equal 1, .any, .known (IntTy.int ⟨.signed, .b8⟩) []] 0 2
      (.known (IntTy.int ⟨.signed, .b8⟩) [])
      [.known (IntTy.int ⟨.signed, .b8⟩) [],
       .known (IntTy.int ⟨.signed, .b8⟩) [],
       .known (IntTy.int ⟨.signed, .b8⟩) []] (by decide) rfl).1
  · exact (c8_both_cells_rewritten puInt 5
      [.equal 1, .any, .known (IntTy.int ⟨.signed, .b8⟩) []] 0 2
      (.known (IntTy.int ⟨.signed, .b8⟩) [])
      [.known (IntTy.int ⟨.signed, .b8⟩) [],
       .known (IntTy.int ⟨.signed, .b8⟩) [],
       .known (IntTy.int ⟨.signed, .b8⟩) []] (by decide) rfl).2

/-- On two distinct self-referential `Resolved` cells (each carrying itself as
its only child), `unify` recurses on the same pair forever: no amount of fuel
makes it return.  Such cells are reachable through the public API because the
engine has no occurs check (see the C9 counterexample below). -/
theorem unify_selfloop {P : Type} (pu : P → P → Except Unit Unit) (t : P)
    (h : Heap P) (a b : Nat) (hne : a ≠ b)
    (ha : h[a]? = some (.known t [a])) (hb : h[b]? = some (.known t [b]))
    (hpu : pu t t = .ok ()) :
    ∀ f, unify pu f h a b = .fuelOut := by
  intro f
  induction f with
  | zero => rw [unify]
  | succ f ih =>
    rw [unify, if_neg hne, ha, hb]
    simp only [hpu, List.zip_cons_cons, List.zip_nil_right, argsLoop, ih]
    rfl

/-- Counterexample to claim C9: the heap built by `any()` (node 0),
`known_with_args(t, vec![node0])` (node 1), `unify(0, 1)`, then `any()`
(node 2), `known_with_args(t, vec![node2])` (node 3), `unify(2, 3)` — all
public-API calls — contains the two cyclic `Resolved` cells 0 and 2, and
`unify(0, 2)` on it does not terminate for any fuel: there is no occurs
check. -/
theorem c9_unify_divergence_counterexample :
    unify puU 3 ([.any, .known () [0]] : Heap Unit) 0 1
        = .ok (.known () [0]) [.known () [0], .known () [0]] ∧
    unify puU 3
        ([.known () [0], .known () [0], .any, .known () [2]] : Heap Unit) 2 3
        = .ok (.known () [2])
            [.known () [0], .known () [0], .known () [2], .known () [2]] ∧
    ¬ ∃ f, unify puU f
        ([.known () [0], .known () [0], .known () [2], .known () [2]] : Heap Unit)
        0 2 ≠ .fuelOut :=
  ⟨rfl, rfl, fun ⟨f, hf⟩ =>
    hf (unify_selfloop puU () _ 0 2 (by decide) rfl rfl rfl f)⟩

/-- A chase always ends at an `Unknown` or `Resolved` shape. -/
theorem chaseTo_shape {P : Type} {h : Heap P} {n d : Nat} {s : InferTy P}
    (hc : ChaseTo h n d s) :
    s = .any ∨ ∃ t args, s = .known t args := by
  induction hc with
  | doneAny _ => exact Or.inl rfl
  | doneKnown _ => exact Or.inr ⟨_, _, rfl⟩
  | link _ _ ih => exact ih

/-- If the left node chases to an `Unknown` terminal, `unify` finishes within
fuel exceeding the two chain lengths, whatever the right node chases to. -/
theorem unify_term_left_any {P : Type} (pu : P → P → Except Unit Unit)
    {h : Heap P} {a da : Nat} {sa : InferTy P} (hca : ChaseTo h a da sa)
    (hsa : sa = .any) :
    ∀ (b db : Nat) (sb : InferTy P), ChaseTo h b db sb →
      ∀ f, da + db < f → ∃ u h', unify pu f h a b = .ok u h' := by
  induction hca with
  | @doneKnown n t args hn => cases hsa
  | @doneAny n hn =>
    intro b db sb hcb
    induction hcb with
    | @doneAny m hm =>
      intro f hf
      obtain ⟨f', rfl⟩ : ∃ f', f = f' + 1 := ⟨f - 1, by omega⟩
      by_cases hab : n = m
      · exact ⟨.any, h, by rw [unify, if_pos hab, hn]⟩
      · exact ⟨.equal h.length,
          ((h ++ [InferTy.any]).set n (.equal h.length)).set m (.equal h.length),
          by rw [unify, if_neg hab, hn, hm]⟩
    | @doneKnown m t args hm =>
      intro f hf
      obtain ⟨f', rfl⟩ : ∃ f', f = f' + 1 := ⟨f - 1, by omega⟩
      by_cases hab : n = m
      · rw [hab, hm] at hn
        cases hn
      · exact ⟨.known t args,
          (h.set n (.known t args)).set m (.known t args),
          by rw [unify, if_neg hab, hn, hm]⟩
    | @link m m2 db' s' hm hrest ihb =>
      intro f hf
      obtain ⟨f', rfl⟩ : ∃ f', f = f' + 1 := ⟨f - 1, by omega⟩
      by_cases hab : n = m
      · rw [hab, hm] at hn
        cases hn
      · obtain ⟨u, h1, hin⟩ := ihb f' (by omega)
        refine ⟨u, (h1.set n u).set m u, ?_⟩
        rw [unify, if_neg hab, hn, hm]
        simp only [hin]
  | @link n m d s hn hrest ih =>
    intro b db sb hcb f hf
    obtain ⟨f', rfl⟩ : ∃ f', f = f' + 1 := ⟨f - 1, by omega⟩
    by_cases hab : n = b
    · exact ⟨.equal m, h, by rw [unify, if_pos hab, hn]⟩
    · obtain ⟨c, hb0⟩ : ∃ c, h[b]? = some c := by
        cases hcb with
        | doneAny h1 => exact ⟨_, h1⟩
        | doneKnown h1 => exact ⟨_, h1⟩
        | link h1 h2 => exact ⟨_, h1⟩
      obtain ⟨u, h1, hin⟩ := ih hsa b db sb hcb f' (by omega)
      refine ⟨u, (h1.set n u).set b u, ?_⟩
      rw [unify, if_neg hab, hn, hb0]
      cases c <;> simp only [hin]

/-- If the right node chases to an `Unknown` terminal and the left to a
`Resolved` one, `unify` finishes within fuel exceeding the two chain
lengths. -/
theorem unify_term_right_any {P : Type} (pu : P → P → Except Unit Unit)
    {h : Heap P} {a da : Nat} {sa : InferTy P} (hca : ChaseTo h a da sa)
    (hsa : ∃ t args, sa = InferTy.known t args) :
    ∀ (b db : Nat) (sb : InferTy P), ChaseTo h b db sb → sb = .any →
      ∀ f, da + db < f → ∃ u h', unify pu f h a b = .ok u h' := by
  induction hca with
  | @doneAny n hn =>
    obtain ⟨t, args, h1⟩ := hsa
    cases h1
  | @doneKnown n t' args' hn =>
    intro b db sb hcb
    induction hcb with
    | @doneKnown m t2 args2 hm =>
      intro hsb
      cases hsb
    | @doneAny m hm =>
      intro hsb f hf
      obtain ⟨f', rfl⟩ : ∃ f', f = f' + 1 := ⟨f - 1, by omega⟩
      by_cases hab : n = m
      · rw [hab, hm] at hn
        cases hn
      · exact ⟨.known t' args',
          (h.set n (.known t' args')).set m (.known t' args'),
          by rw [unify, if_neg hab, hn, hm]⟩
    | @link m m2 db' s' hm hrest ihb =>
      intro hsb f hf
      obtain ⟨f', rfl⟩ : ∃ f', f = f' + 1 := ⟨f - 1, by omega⟩
      by_cases hab : n = m
      · rw [hab, hm] at hn
        cases hn
      · obtain ⟨u, h1, hin⟩ := ihb hsb f' (by omega)
        refine ⟨u, (h1.set n u).set m u, ?_⟩
        rw [unify, if_neg hab, hn, hm]
        simp only [hin]
  | @link n m d s hn hrest ih =>
    intro b db sb hcb hsb f hf
    obtain ⟨f', rfl⟩ : ∃ f', f = f' + 1 := ⟨f - 1, by omega⟩
    by_cases hab : n = b
    · exact ⟨.equal m, h, by rw [unify, if_pos hab, hn]⟩
    · obtain ⟨c, hb0⟩ : ∃ c, h[b]? = some c := by
        cases hcb with
        | doneAny h1 => exact ⟨_, h1⟩
        | doneKnown h1 => exact ⟨_, h1⟩
        | link h1 h2 => exact ⟨_, h1⟩
      obtain ⟨u, h1, hin⟩ := ih hsa b db sb hcb hsb f' (by omega)
      refine ⟨u, (h1.set n u).set b u, ?_⟩
      rw [unify, if_neg hab, hn, hb0]
      cases c <;> simp only [hin]

/-- Claim C9 as amended: `concretize` always terminates on finite alias
chains, and `unify(a, b)` terminates — with recursion depth bounded by the
alias-chain lengths — whenever at least one of the two chased-to terminals is
still `Unknown`; but on a pair of `Resolved` nodes whose argument graphs are
cyclic (constructible through the public API, since the engine has no occurs
check) `unify` need not terminate, as the C9 counterexample shows. -/
theorem c9_unify_terminates_with_unknown_side {P : Type}
    (pu : P → P → Except Unit Unit) (h : Heap P) (a b da db : Nat)
    (sa sb : InferTy P) (hca : ChaseTo h a da sa) (hcb : ChaseTo h b db sb)
    (hany : sa = .any ∨ sb = .any) (f : Nat) (hf : da + db < f) :
    ∃ u h', unify pu f h a b = .ok u h' := by
  cases hany with
  | inl h1 =>
    exact unify_term_left_any pu hca h1 b db sb hcb f hf
  | inr h1 =>
    rcases chaseTo_shape hca with h2 | ⟨t, args, h2⟩
    · exact unify_term_left_any pu hca h2 b db sb hcb f hf
    · exact unify_term_right_any pu hca ⟨t, args, h2⟩ b db sb hcb h1 f hf

/-- Witness for the amended C9 at a concrete `Unknown`/`Resolved` pair. -/
theorem c9_unify_terminates_with_unknown_side_witness :
    ChaseTo ([.any, .known IntTy.any []] : Heap IntTy) 0 0 .any ∧
    ChaseTo ([.any, .known IntTy.any []] : Heap IntTy) 1 0
      (.known IntTy.any []) ∧
    (0 + 0 : Nat) < 1 ∧
    ∃ u h', unify puInt 1 ([.any, .known IntTy.any []] : Heap IntTy) 0 1
      = .ok u h' :=
  ⟨ChaseTo.doneAny rfl, ChaseTo.doneKnown rfl, by decide,
    c9_unify_terminates_with_unknown_side puInt
      ([.any, .known IntTy.any []] : Heap IntTy) 0 1 0 0 .any
      (.known IntTy.any []) (ChaseTo.doneAny rfl) (ChaseTo.doneKnown rfl)
      (Or.inl rfl) 1 (by decide)⟩

/-- Claim C3 (struct row inference end-to-end, spec-modelled engine over the
`src/ty.rs` merge rules).  Unifying `WithFields{x: IntUnknown}` with
`WithFields{y: i32}` merges the rows — the field present on both heaps'
single side is adopted as-is — writing `WithFields{x, y}` into both cells;
unifying the result with the declared `Known "Point"` yields the `Known`
struct on both cells; and concretizing the original `x` type node afterwards
yields `Fixed{Signed, 32}`. -/
theorem c3_struct_row_end_to_end :
    unifyStruct 20 rowSt0 0 1 = .ok (.id 0) rowSt1 ∧
    rowSt1.structs[0]? = some (.known (.withFields [("x", 0), ("y", 1)]) []) ∧
    rowSt1.structs[1]? = some (.known (.withFields [("x", 0), ("y", 1)]) []) ∧
    unifyStruct 20 rowSt1 0 2 = .ok (.id 0) rowSt2 ∧
    rowSt2.structs[0]?
      = some (.known (.known ⟨"Point", [⟨"x", 2⟩, ⟨"y", 3⟩]⟩) []) ∧
    rowSt2.structs[2]?
      = some (.known (.known ⟨"Point", [⟨"x", 2⟩, ⟨"y", 3⟩]⟩) []) ∧
    concreteTy 20 rowSt2 0 = .ok (.c (.int ⟨.signed, .b32⟩)) :=
  ⟨rfl, rfl, rfl, rfl, rfl, rfl, rfl⟩

/-- Counterexample to claim C5: unifying the row constraint `WithFields{z}`
against the declared `Known "Point"` (which has no field `z`) does not return
a `MissingField` error — it hits the `unwrap()` panic of `src/ty.rs` line
125, in either argument order. -/
theorem c5_missing_field_counterexample :
    StructTy.unify 3 ⟨[], [], []⟩ (.withFields [("z", 0)])
        (.known ⟨"Point", [⟨"x", 2⟩, ⟨"y", 3⟩]⟩) = .panicked ∧
    StructTy.unify 3 ⟨[], [], []⟩ (.known ⟨"Point", [⟨"x", 2⟩, ⟨"y", 3⟩]⟩)
        (.withFields [("z", 0)]) = .panicked := ⟨rfl, rfl⟩

/-- Claim C5 as amended: when a `WithFields` constraint is unified with a
`Known` struct and a required field name does not exist among the declared
fields, `StructTy::unify` aborts via `unwrap()` (`src/ty.rs` line 125) rather
than returning a `MissingField` error (here stated for the first required
field; earlier required fields may themselves fail first). -/
theorem c5_missing_field_panics (f : Nat) (st : St) (s : KnownStruct Nat)
    (name : String) (tyv : Nat) (rest : List (String × Nat))
    (hmiss : s.fields.find? (fun fl => fl.name == name) = none) :
    StructTy.unify (f + 2) st (.withFields ((name, tyv) :: rest)) (.known s)
        = .panicked ∧
    StructTy.unify (f + 2) st (.known s) (.withFields ((name, tyv) :: rest))
        = .panicked := by
  constructor
  · rw [StructTy.unify]
    rw [step]
    rw [step]
    rw [hmiss]
  · rw [StructTy.unify]
    rw [step]
    rw [step]
    rw [hmiss]

/-- Witness for the amended C5 at the `Point`/`z` scenario. -/
theorem c5_missing_field_panics_witness :
    ((⟨"Point", [⟨"x", 2⟩, ⟨"y", 3⟩]⟩ : KnownStruct Nat).fields.find?
        (fun fl => fl.name == "z") = none) ∧
    StructTy.unify 4 ⟨[], [], []⟩ (.withFields [("z", 0)])
        (.known ⟨"Point", [⟨"x", 2⟩, ⟨"y", 3⟩]⟩) = .panicked ∧
    StructTy.unify 4 ⟨[], [], []⟩ (.known ⟨"Point", [⟨"x", 2⟩, ⟨"y", 3⟩]⟩)
        (.withFields [("z", 0)]) = .panicked :=
  ⟨rfl,
    (c5_missing_field_panics 2 ⟨[], [], []⟩ ⟨"Point", [⟨"x", 2⟩, ⟨"y", 3⟩]⟩
      "z" 0 [] rfl).1,
    (c5_missing_field_panics 2 ⟨[], [], []⟩ ⟨"Point", [⟨"x", 2⟩, ⟨"y", 3⟩]⟩
      "z" 0 [] rfl).2⟩

/-- Claim C7 (`Any` is an identity of the top-level `Type` merge,
`src/ty.rs` lines 70–71): merging `Ty::Any` with any payload `t` yields `t`,
in both orders; and, node-level (spec-modelled engine), after a successful
unify of `Resolved(Any)` with `Resolved(Bool)` both cells' payloads are
`Bool`, regardless of argument order. -/
theorem c7_any_merge_identity :
    (∀ (f : Nat) (st : St) (t : Ty),
        Ty.unify (f + 1) st .any t = .ok (.ty t) st) ∧
    (∀ (f : Nat) (st : St) (t : Ty),
        Ty.unify (f + 1) st t .any = .ok (.ty t) st) ∧
    unifyTy 20 { tys := [.known Ty.any [], .known Ty.bool []],
                 ints := [], structs := [] } 0 1
      = .ok (.id 0) { tys := [.known Ty.bool [], .known Ty.bool []],
                      ints := [], structs := [] } ∧
    unifyTy 20 { tys := [.known Ty.any [], .known Ty.bool []],
                 ints := [], structs := [] } 1 0
      = .ok (.id 1) { tys := [.known Ty.bool [], .known Ty.bool []],
                      ints := [], structs := [] } :=
  ⟨fun _ _ t => by cases t <;> rfl,
   fun _ _ t => by cases t <;> rfl,
   rfl, rfl⟩

/-- Claim C10: `IntTy::concrete` on the still-unconstrained `IntTy::Any`
never fails — it silently returns the default `Int { Signed, B32 }`
(`src/ty.rs` line 107) — so an int node that received no width or signedness
constraint concretizes to `i32` instead of reporting an unresolved-type
error. -/
theorem c10_int_any_concrete_defaults :
    IntTy.concrete IntTy.any = ⟨.signed, .b32⟩ ∧
    concreteInt 2 { tys := [], ints := [.known IntTy.any []], structs := [] } 0
      = .ok (.ci ⟨.signed, .b32⟩) :=
  ⟨rfl, rfl⟩

end PL
